import Mathlib

/-!
Shallow embedding of `qiskit/providers/ibmq/jobmanager.py` (class `JobManager`)
and verification of the specified properties of its partitioning, run,
submission-callback, and query/aggregation operations.

Conventions of the embedding:
* Python `None` becomes `Option.none`; Python truthiness of optional
  integers/floats/strings/lists is modelled explicitly where the source
  relies on it (`elif max_experiments_per_job:`, `if timeout:`,
  `if self._result:`, `if self._error_msg:`, `if self._submit_exception:`).
* Exceptions become `Except` values.  `JobErr` stands for `JobError`
  raised by remote-handle operations; `JMError` stands for the
  manager-level exceptions (`IBMQJobManagerInvalidStateError`,
  `IBMQJobManagerTimeoutError`) together with the `ValueError` that
  `range(0, L, 0)` raises inside `_split_experiments`.
* External collaborators (transpile, assemble, the remote handles) are
  parameters of the embedded operations; a remote handle (`IBMQJob`) is a
  record of the responses its operations would give.
* Wall-clock durations in `result()` are modelled as integer time units
  (the claims only compare and add durations): fetching handle `k`
  blocks for `fetchDuration k` units, and the shared budget bookkeeping
  of the source is reproduced literally.
-/

deriving instance DecidableEq for Except

/-- `JobStatus` enumeration from `qiskit.providers.jobstatus`. -/
inductive JobStatus where
  | INITIALIZING
  | QUEUED
  | VALIDATING
  | RUNNING
  | CANCELLED
  | DONE
  | ERROR
deriving DecidableEq

/-- The display string of a status (`status.value` in the source). -/
def JobStatus.value : JobStatus → String
  | .INITIALIZING => "job is being initialized"
  | .QUEUED => "job is queued"
  | .VALIDATING => "job is being validated"
  | .RUNNING => "job is actively running"
  | .CANCELLED => "job has been cancelled"
  | .DONE => "job has successfully run"
  | .ERROR => "job incurred error"

/-- A `JobError` raised by a remote-handle operation. -/
structure JobErr where
  msg : String
deriving DecidableEq

/-- Manager-level exceptions: `IBMQJobManagerInvalidStateError`,
`IBMQJobManagerTimeoutError`, the `ValueError` from `range(0, L, 0)`,
and arbitrary exceptions escaping the external transpile/assemble calls. -/
inductive JMError where
  | invalidState (msg : String)
  | timeoutError (msg : String)
  | valueError (msg : String)
  | external (msg : String)
deriving DecidableEq

/-- A `qiskit.result.Result` object, kept abstract. -/
structure QResult where
  rid : Nat
deriving DecidableEq

/-- An assembled `Qobj` payload, kept abstract. -/
structure Qobj where
  qid : Nat
deriving DecidableEq

/-- One experiment (circuit or pulse schedule).  Only whether it is a
`ScheduleComponent` is inspected by the manager; `payload` keeps distinct
experiments distinguishable. -/
structure Experiment where
  isSchedule : Bool
  payload : Nat
deriving DecidableEq

/-- The part of `backend.configuration()` the manager reads:
`max_experiments` is `some` exactly when the attribute exists
(`hasattr` in the source), and `open_pulse` reports pulse support. -/
structure BackendConfiguration where
  max_experiments : Option Int
  open_pulse : Bool
deriving DecidableEq

/-- A remote sub-job handle (`IBMQJob`), recorded as the responses its
operations would give: `statusResult`, `errorMessageResult`,
`queuePositionResult`, `cancelResult` are the outcomes of `status()`,
`error_message()`, `queue_position()`, `cancel()`; `fetchDuration` and
`fetchResult` describe `result(...)` (blocking for `fetchDuration`
seconds and then returning or raising a `JobError`). -/
structure Job where
  job_id : String
  name : String
  start_index : Nat
  end_index : Nat
  statusResult : Except JobErr JobStatus
  errorMessageResult : Except JobErr String
  queuePositionResult : Except JobErr Nat
  cancelResult : Except JobErr Unit
  fetchDuration : Int
  fetchResult : Except JobErr QResult

/-- The mutable fields of a `JobManager` instance (`__init__`). -/
structure JobManagerState where
  jobs : List Job
  submit_exception : Option JobErr
  submit_done : Bool
  submit_called : Bool
  result_cache : Option (List (Option QResult))
  error_msg_cache : Option String

/-- A freshly constructed `JobManager`. -/
def initialState : JobManagerState :=
  { jobs := []
    submit_exception := none
    submit_done := false
    submit_called := false
    result_cache := none
    error_msg_cache := none }

/-! ## Partitioning (`JobManager._split_experiments`) -/

/-- Fixed-size contiguous chunking, recursion worker: `fuel` only makes the
recursion structural; every step consumes at least one element, so any
`fuel ≥ xs.length` computes the chunking of `xs` (see `splitChunksGo_eq`).
For `c ≥ 1` the step takes the next `c` elements and drops them:
`(x :: rest).drop c = rest.drop (c - 1)`. -/
def splitChunksGo (c : Nat) : Nat → List α → List (List α)
  | _, [] => []
  | 0, _ :: _ => []
  | fuel + 1, x :: rest => ((x :: rest).take c) :: splitChunksGo c fuel (rest.drop (c - 1))

/-- Fixed-size contiguous chunking: the value of
`[xs[x:x+c] for x in range(0, len(xs), c)]` for a positive step `c`
(each iteration takes the next `c` elements and advances by `c`). -/
def splitChunks (c : Nat) (xs : List α) : List (List α) :=
  splitChunksGo c xs.length xs

theorem splitChunksGo_eq (c fuel : Nat) :
    ∀ (xs : List α), xs.length ≤ fuel →
      splitChunksGo c fuel xs = splitChunks c xs := by
  induction fuel using Nat.strong_induction_on with
  | _ n ih =>
    intro xs h
    cases xs with
    | nil => cases n <;> rfl
    | cons x rest =>
      cases n with
      | zero => simp at h
      | succ m =>
        show _ = splitChunksGo c (rest.length + 1) (x :: rest)
        simp only [splitChunksGo]
        have hd : (rest.drop (c - 1)).length ≤ rest.length := by simp
        have hm : rest.length ≤ m := by simpa using h
        rw [ih m (Nat.lt_succ_self m) _ (le_trans hd hm),
            ih rest.length (Nat.lt_succ_of_le hm) _ hd]

/-- The one-step unfolding of `splitChunks` on a nonempty list. -/
theorem splitChunks_cons (c : Nat) (x : α) (rest : List α) :
    splitChunks c (x :: rest) =
      ((x :: rest).take c) :: splitChunks c (rest.drop (c - 1)) := by
  show splitChunksGo c (rest.length + 1) (x :: rest) = _
  simp only [splitChunksGo]
  rw [splitChunksGo_eq c rest.length (rest.drop (c - 1)) (by simp)]

theorem splitChunks_nil (c : Nat) : splitChunks c ([] : List α) = [] := rfl

theorem splitChunks_nil_iff (c : Nat) (xs : List α) :
    splitChunks c xs = [] ↔ xs = [] := by
  cases xs with
  | nil => simp [splitChunks_nil]
  | cons x rest => rw [splitChunks_cons]; simp

/-- Concatenating the chunks in order reproduces the original list. -/
theorem splitChunks_flatten (c : Nat) (hc : 0 < c) (xs : List α) :
    (splitChunks c xs).flatten = xs := by
  have H : ∀ (n : Nat) (xs : List α), xs.length ≤ n →
      (splitChunks c xs).flatten = xs := by
    intro n
    induction n with
    | zero =>
        intro xs h
        cases xs with
        | nil => rfl
        | cons x rest => simp at h
    | succ m ih =>
        intro xs h
        cases xs with
        | nil => rfl
        | cons x rest =>
            rw [splitChunks_cons]
            simp only [List.flatten_cons]
            rw [ih (rest.drop (c - 1))
                (by simp only [List.length_drop]; simp at h; omega)]
            have hdrop : rest.drop (c - 1) = (x :: rest).drop c := by
              obtain ⟨k, rfl⟩ : ∃ k, c = k + 1 :=
                ⟨c - 1, (Nat.succ_pred_eq_of_pos hc).symm⟩
              simp
            rw [hdrop, List.take_append_drop]
  exact H xs.length xs le_rfl

/-- Arithmetic step for the chunk count: one chunk plus the ceiling count
of the remainder is the ceiling count of the whole. -/
theorem ceil_div_step (k L : Nat) :
    (L - k + k) / (k + 1) + 1 = (L + (k + 1)) / (k + 1) := by
  rw [Nat.add_div_right _ (Nat.succ_pos k)]
  rcases le_or_lt k L with hk | hk
  · rw [Nat.sub_add_cancel hk]
  · rw [Nat.sub_eq_zero_of_le (le_of_lt hk), Nat.zero_add,
        Nat.div_eq_of_lt (Nat.lt_succ_of_lt hk), Nat.div_eq_of_lt (by omega)]

/-- The number of chunks is `⌈L / c⌉`, written `(L + c - 1) / c`. -/
theorem splitChunks_length (c : Nat) (hc : 0 < c) (xs : List α) :
    (splitChunks c xs).length = (xs.length + c - 1) / c := by
  obtain ⟨k, rfl⟩ : ∃ k, c = k + 1 := ⟨c - 1, (Nat.succ_pred_eq_of_pos hc).symm⟩
  have H : ∀ (n : Nat) (xs : List α), xs.length ≤ n →
      (splitChunks (k + 1) xs).length = (xs.length + (k + 1) - 1) / (k + 1) := by
    intro n
    induction n with
    | zero =>
        intro xs h
        cases xs with
        | nil => simp [splitChunks_nil, Nat.div_eq_of_lt]
        | cons x rest => simp at h
    | succ m ih =>
        intro xs h
        cases xs with
        | nil => simp [splitChunks_nil, Nat.div_eq_of_lt]
        | cons x rest =>
            rw [splitChunks_cons]
            simp only [List.length_cons]
            rw [ih (rest.drop (k + 1 - 1))
                (by simp only [List.length_drop]; simp at h; omega)]
            have e1 : (rest.drop (k + 1 - 1)).length + (k + 1) - 1 =
                rest.length - k + k := by
              simp only [List.length_drop]; omega
            have e2 : rest.length + 1 + (k + 1) - 1 = rest.length + (k + 1) := by
              omega
            rw [e1, e2, ceil_div_step]
  exact H xs.length xs le_rfl

/-- Every chunk is nonempty and no larger than the chunk size. -/
theorem splitChunks_sizes (c : Nat) (hc : 0 < c) (xs : List α) :
    ∀ l ∈ splitChunks c xs, 0 < l.length ∧ l.length ≤ c := by
  have H : ∀ (n : Nat) (xs : List α), xs.length ≤ n →
      ∀ l ∈ splitChunks c xs, 0 < l.length ∧ l.length ≤ c := by
    intro n
    induction n with
    | zero =>
        intro xs h
        cases xs with
        | nil => simp [splitChunks_nil]
        | cons x rest => simp at h
    | succ m ih =>
        intro xs h
        cases xs with
        | nil => simp [splitChunks_nil]
        | cons x rest =>
            rw [splitChunks_cons]
            intro l hl
            rcases List.mem_cons.mp hl with rfl | hl
            · simp only [List.length_take, List.length_cons]
              omega
            · exact ih (rest.drop (c - 1))
                (by simp only [List.length_drop]; simp at h; omega) l hl
  exact H xs.length xs le_rfl

/-- Every chunk except possibly the last has length exactly `c`. -/
theorem splitChunks_dropLast (c : Nat) (hc : 0 < c) (xs : List α) :
    ∀ l ∈ (splitChunks c xs).dropLast, l.length = c := by
  have H : ∀ (n : Nat) (xs : List α), xs.length ≤ n →
      ∀ l ∈ (splitChunks c xs).dropLast, l.length = c := by
    intro n
    induction n with
    | zero =>
        intro xs h
        cases xs with
        | nil => simp [splitChunks_nil]
        | cons x rest => simp at h
    | succ m ih =>
        intro xs h
        cases xs with
        | nil => simp [splitChunks_nil]
        | cons x rest =>
            rw [splitChunks_cons]
            rcases ht : splitChunks c (rest.drop (c - 1)) with _ | ⟨b, t⟩
            · simp
            · intro l hl
              rw [List.dropLast_cons₂] at hl
              rcases List.mem_cons.mp hl with rfl | hl
              · have hne : rest.drop (c - 1) ≠ [] := by
                  intro hnil
                  rw [hnil, splitChunks_nil] at ht
                  exact List.cons_ne_nil b t ht.symm
                have hlen : c - 1 < rest.length := by
                  by_contra hge
                  exact hne (List.drop_eq_nil_of_le (by omega))
                simp only [List.length_take, List.length_cons]
                omega
              · rw [← ht] at hl
                exact ih (rest.drop (c - 1))
                  (by simp only [List.length_drop]; simp at h; omega) l hl
  exact H xs.length xs le_rfl

/-- Chunk `i` is exactly the contiguous slice `xs[c*i : c*i + c]` of the
original list; hence the chunks are contiguous and non-overlapping. -/
theorem splitChunks_getElem (c : Nat) (hc : 0 < c) (xs : List α) (i : Nat)
    (hi : i < (splitChunks c xs).length) :
    (splitChunks c xs)[i]? = some ((xs.drop (c * i)).take c) := by
  have H : ∀ (n : Nat) (xs : List α), xs.length ≤ n → ∀ (i : Nat),
      i < (splitChunks c xs).length →
      (splitChunks c xs)[i]? = some ((xs.drop (c * i)).take c) := by
    intro n
    induction n with
    | zero =>
        intro xs h
        cases xs with
        | nil => intro i hi; rw [splitChunks_nil] at hi; simp at hi
        | cons x rest => simp at h
    | succ m ih =>
        intro xs h i hi
        cases xs with
        | nil => rw [splitChunks_nil] at hi; simp at hi
        | cons x rest =>
            rw [splitChunks_cons] at hi ⊢
            have hdrop : rest.drop (c - 1) = (x :: rest).drop c := by
              obtain ⟨k, rfl⟩ : ∃ k, c = k + 1 :=
                ⟨c - 1, (Nat.succ_pred_eq_of_pos hc).symm⟩
              simp
            cases i with
            | zero => simp
            | succ j =>
                simp only [List.getElem?_cons_succ]
                rw [ih (rest.drop (c - 1))
                      (by simp only [List.length_drop]; simp at h; omega) j
                      (by simpa using hi),
                    hdrop, List.drop_drop]
                have harith : c + c * j = c * (j + 1) := by ring
                rw [harith]
  exact H xs.length xs le_rfl i hi

/-- The final slicing statement of `_split_experiments` for an arbitrary
integer `chunk_size`: Python raises `ValueError` from `range` when the
step is `0`, produces no slices when the step is negative, and chunks
greedily when it is positive. -/
def sliceLoop (xs : List α) (c : Int) : Except JMError (List (List α)) :=
  if c = 0 then .error (.valueError "range() arg 3 must not be zero")
  else if c < 0 then .ok []
  else .ok (splitChunks c.toNat xs)

/-- `JobManager._split_experiments`.  The `hasattr` test is the
`Option` match on `cfg.max_experiments`; `elif max_experiments_per_job:`
is Python truthiness, false for both `None` and `0`. -/
def split_experiments (xs : List α) (cfg : BackendConfiguration)
    (max_experiments_per_job : Option Int) : Except JMError (List (List α)) :=
  match cfg.max_experiments with
  | some backend_max =>
      sliceLoop xs
        (match max_experiments_per_job with
         | none => backend_max
         | some m => min backend_max m)
  | none =>
      match max_experiments_per_job with
      | some m => if m = 0 then .ok [xs] else sliceLoop xs m
      | none => .ok [xs]

/-- The effective chunk size resolved by `_split_experiments`:
`none` means the list is returned whole, `some c` means the final
slicing statement runs with step `c`. -/
def effective_chunk (cfg : BackendConfiguration)
    (max_experiments_per_job : Option Int) : Option Int :=
  match cfg.max_experiments with
  | some backend_max =>
      some (match max_experiments_per_job with
            | none => backend_max
            | some m => min backend_max m)
  | none =>
      match max_experiments_per_job with
      | some m => if m = 0 then none else some m
      | none => none

theorem split_experiments_eq_effective (xs : List α) (cfg : BackendConfiguration)
    (m : Option Int) :
    split_experiments xs cfg m =
      match effective_chunk cfg m with
      | some c => sliceLoop xs c
      | none => .ok [xs] := by
  rcases cfg with ⟨mb, op⟩
  rcases mb with _ | b <;> rcases m with _ | mm <;>
    simp [split_experiments, effective_chunk]
  by_cases h : mm = 0 <;> simp [h]

example : split_experiments [0, 1, 2, 3, 4] ⟨some 2, true⟩ none =
    .ok [[0, 1], [2, 3], [4]] := by decide
example : split_experiments [0, 1, 2] ⟨none, true⟩ (some 0) = .ok [[0, 1, 2]] := by decide
example : split_experiments [0, 1, 2] ⟨some 0, true⟩ none =
    .error (.valueError "range() arg 3 must not be zero") := by decide
example : split_experiments ([] : List Nat) ⟨none, true⟩ none = .ok [[]] := by decide

/-! ## Run (`JobManager.run`) -/

/-- The assembly loop of `run`: one `assemble(...)` call per sub-batch,
appending to `qobjs`; an exception escaping `assemble` propagates. -/
def assembleAll (asm : List Experiment → Except JMError Qobj) :
    List (List Experiment) → Except JMError (List Qobj)
  | [] => .ok []
  | l :: rest =>
      match asm l with
      | .error e => .error e
      | .ok q =>
          match assembleAll asm rest with
          | .error e => .error e
          | .ok qs => .ok (q :: qs)

/-- What a call to `run` produced: the returned value or the escaping
exception, the manager state afterwards, and the payload list handed to
the background executor (`none` when `executor.submit` was never
reached). -/
structure RunOutput where
  ret : Except JMError Nat
  state : JobManagerState
  dispatched : Option (List Qobj)

/-- `JobManager.run`.  External collaborators are parameters: `tr` is
`transpile(circuits=..., backend=...)` and `asm` is
`assemble(experiment, backend=..., shots=...)`; either may raise.  The
source raises the pulse-support error first, then the one-shot error;
`self._submit_called` is assigned only after `executor.submit` and
`add_done_callback`, so every failing path leaves the state unchanged
and dispatches nothing. -/
def run (st : JobManagerState) (experiments : List Experiment)
    (cfg : BackendConfiguration)
    (tr : List Experiment → Except JMError (List Experiment))
    (asm : List Experiment → Except JMError Qobj)
    (skip_transpile : Bool) (max_experiments_per_job : Option Int) : RunOutput :=
  if experiments.any (fun e => e.isSchedule) && !cfg.open_pulse then
    ⟨.error (.invalidState "The backend does not support pulse schedules."), st, none⟩
  else if st.submit_called then
    ⟨.error (.invalidState "Jobs were already submitted."), st, none⟩
  else
    match (if skip_transpile then .ok experiments else tr experiments) with
    | .error e => ⟨.error e, st, none⟩
    | .ok exps =>
        match split_experiments exps cfg max_experiments_per_job with
        | .error e => ⟨.error e, st, none⟩
        | .ok experiment_list =>
            match assembleAll asm experiment_list with
            | .error e => ⟨.error e, st, none⟩
            | .ok qobjs =>
                ⟨.ok qobjs.length, { st with submit_called := true }, some qobjs⟩

/-! ## Completion handler (`JobManager._submit_callback`) -/

/-- One element of the worker outcome sequence `future.result()`: the
background `submit_async` worker yields, per payload and in order, either
an `IBMQJob` handle or the exception that submission raised. -/
inductive SubmitOutcome where
  | job (j : Job)
  | err (e : JobErr)

/-- The partition loop of `_submit_callback`: handles are appended to
`self._jobs`, every failure overwrites `self._submit_exception`. -/
def partitionOutcomes : List SubmitOutcome → List Job → Option JobErr →
    List Job × Option JobErr
  | [], js, ex => (js, ex)
  | .job j :: rest, js, ex => partitionOutcomes rest (js ++ [j]) ex
  | .err e :: rest, js, _ex => partitionOutcomes rest js (some e)

/-- The cleanup loop `for job in self._jobs: job.cancel()`: cancels in
order until one `cancel()` raises; returns the handles on which
`cancel()` was invoked and the escaping exception, if any. -/
def cancelLoop : List Job → List Job × Option JobErr
  | [] => ([], none)
  | j :: rest =>
      match j.cancelResult with
      | .ok _ =>
          match cancelLoop rest with
          | (cs, e) => (j :: cs, e)
      | .error e => ([j], some e)

/-- What one execution of `_submit_callback` produced: the manager state
afterwards, the handles whose `cancel()` was invoked, and the exception
escaping the callback, if any. -/
structure CallbackResult where
  state : JobManagerState
  cancelAttempted : List Job
  raised : Option JobErr

/-- `JobManager._submit_callback`.  Partitions the worker outcomes, and
if `self._submit_exception` is truthy afterwards cancels the collected
handles and empties `self._jobs`.  `job.cancel()` is not guarded, so an
exception it raises escapes before `self._jobs = []` and before
`self._submit_done_event.set()`. -/
def submit_callback (st : JobManagerState) (results : List SubmitOutcome) :
    CallbackResult :=
  match partitionOutcomes results st.jobs st.submit_exception with
  | (jobs, ex) =>
      match ex with
      | some e =>
          match cancelLoop jobs with
          | (attempted, none) =>
              ⟨{ st with
                  jobs := []
                  submit_exception := some e
                  submit_done := true },
               attempted, none⟩
          | (attempted, some ce) =>
              ⟨{ st with jobs := jobs, submit_exception := some e },
               attempted, some ce⟩
      | none => ⟨{ st with jobs := jobs, submit_done := true }, [], none⟩

/-- The handles of the successful outcomes, in order. -/
def successesOf (results : List SubmitOutcome) : List Job :=
  results.filterMap (fun r => match r with | .job j => some j | .err _ => none)

/-- The failure values among the outcomes, in order. -/
def errorsOf (results : List SubmitOutcome) : List JobErr :=
  results.filterMap (fun r => match r with | .job _ => none | .err e => some e)

/-- The last element of a list of failures, defaulting to `ex`; this is
the value `self._submit_exception` holds after the partition loop. -/
def lastErr : List JobErr → Option JobErr → Option JobErr
  | [], ex => ex
  | e :: rest, _ex => lastErr rest (some e)

theorem partitionOutcomes_eq (results : List SubmitOutcome) :
    ∀ (js : List Job) (ex : Option JobErr),
      partitionOutcomes results js ex =
        (js ++ successesOf results, lastErr (errorsOf results) ex) := by
  induction results with
  | nil => intro js ex; simp [partitionOutcomes, successesOf, errorsOf, lastErr]
  | cons r rest ih =>
      intro js ex
      cases r with
      | job j =>
          simp only [partitionOutcomes, ih, successesOf, errorsOf,
            List.filterMap_cons]
          simp [lastErr]
      | err e =>
          simp only [partitionOutcomes, ih, successesOf, errorsOf,
            List.filterMap_cons]
          simp [lastErr]

/-! ## Query and aggregation API -/

/-- `JobManager.jobs`: returns `self._jobs` as-is. -/
def jobsQuery (st : JobManagerState) : List Job := st.jobs

/-- Worker for `pySplitNewline`, walking the character list. -/
def splitNewlineAux : List Char → List Char → List String
  | [], acc => [String.mk acc.reverse]
  | c :: rest, acc =>
      if c = '\n' then String.mk acc.reverse :: splitNewlineAux rest []
      else splitNewlineAux rest (c :: acc)

/-- Python `s.split('\n')`: split on every newline, keeping empty
pieces (a structurally recursive model of the library call). -/
def pySplitNewline (s : String) : List String := splitNewlineAux s.data []

/-- Python `'\n'.join(lines)` (a structurally recursive model of the
library call). -/
def joinNewline : List String → String
  | [] => ""
  | [l] => l
  | l :: l2 :: rest => l ++ "\n" ++ joinNewline (l2 :: rest)

/-- Python `str.rjust`: pad with spaces on the left up to `width`. -/
def pyRjust (s : String) (width : Nat) : String :=
  if s.length < width then String.mk (List.replicate (width - s.length) ' ') ++ s
  else s

/-- `JobManager.status`: per-handle status fetch with each `JobError`
caught and replaced by `None` at that position. -/
def statusList (jobs : List Job) : List (Option JobStatus) :=
  jobs.map (fun j => match j.statusResult with | .ok s => some s | .error _ => none)

/-- The five summary lines of `JobManager.report`. -/
def summaryLines (statuses : List (Option JobStatus)) : List String :=
  ["Summary report:",
   "       Total jobs: " ++ toString statuses.length,
   "  Successful jobs: " ++ toString (statuses.count (some JobStatus.DONE)),
   "      Failed jobs: " ++ toString (statuses.count (some JobStatus.ERROR)),
   "   Cancelled jobs: " ++ toString (statuses.count (some JobStatus.CANCELLED)),
   "     Running jobs: " ++ toString (statuses.count (some JobStatus.RUNNING))]

/-- The detail loop of `JobManager.report`: one block per handle, in
order; `queue_position()` and `error_message()` are called unguarded for
queued and errored handles, so a `JobError` they raise escapes. -/
def detailLoop : Nat → List (Option JobStatus × Job) → Except JobErr (List String)
  | _, [] => .ok []
  | i, (status, job) :: rest =>
      let status_txt := match status with | some s => s.value | none => "Unknown"
      let head := ["  - Job " ++ toString i ++ " -",
                   "    job ID: " ++ job.job_id,
                   "    name: " ++ job.name,
                   "    status: " ++ status_txt,
                   "    experiments: " ++ toString job.start_index ++ "-" ++
                     toString job.end_index]
      let extra : Except JobErr (List String) :=
        match status with
        | some JobStatus.QUEUED =>
            match job.queuePositionResult with
            | .ok qp => .ok ["    queue position: " ++ toString qp]
            | .error e => .error e
        | some JobStatus.ERROR =>
            match job.errorMessageResult with
            | .ok m => .ok ("    error_messsage:" ::
                (pySplitNewline m).map (fun s => pyRjust s (s.length + 6)))
            | .error e => .error e
        | _ => .ok []
      match extra with
      | .error e => .error e
      | .ok extraLines =>
          match detailLoop (i + 1) rest with
          | .error e => .error e
          | .ok restLines => .ok (head ++ extraLines ++ restLines)

/-- `JobManager.report`. -/
def report (st : JobManagerState) (detailed : Bool) : Except JobErr String :=
  let statuses := statusList st.jobs
  if detailed then
    match detailLoop 0 (statuses.zip st.jobs) with
    | .error e => .error e
    | .ok dl =>
        .ok (joinNewline
          (summaryLines statuses ++ "\nDetail report:" :: dl))
  else .ok (joinNewline (summaryLines statuses))

/-- The entry `job.result(...)` contributes to the results list: a
`JobError` is caught and recorded as `None`. -/
def fetchOutcome (j : Job) : Option QResult :=
  match j.fetchResult with | .ok r => some r | .error _ => none

/-- The message of the `IBMQJobManagerTimeoutError` raised for handle `i`. -/
def timeoutMsg (j : Job) (i : Nat) : String :=
  "Timeout waiting for results for experiments " ++ toString j.start_index ++
    "-" ++ toString j.end_index ++ " (job " ++ toString i ++ ", ID=" ++
    j.job_id ++ ")."

/-- Python truthiness of the `timeout` float: false for `None` and `0`. -/
def pyTruthy : Option Int → Bool
  | none => false
  | some q => q != 0

/-- The fetch loop of `JobManager.result`: each handle blocks for its
fetch duration; afterwards, if the running `timeout` variable is truthy,
it is reassigned to `original_timeout` minus total elapsed time and the
loop raises `IBMQJobManagerTimeoutError` when that drops to `0` or
below. -/
def resultLoop (original_timeout : Option Int) :
    List Job → Nat → Int → Option Int → List (Option QResult) →
    Except JMError (List (Option QResult))
  | [], _, _, _, acc => .ok acc
  | j :: rest, i, elapsed, timeout, acc =>
      let acc' := acc ++ [fetchOutcome j]
      let elapsed' := elapsed + j.fetchDuration
      if pyTruthy timeout then
        let remaining := (match original_timeout with | some t => t | none => 0)
          - elapsed'
        if remaining ≤ 0 then .error (.timeoutError (timeoutMsg j i))
        else resultLoop original_timeout rest (i + 1) elapsed' (some remaining) acc'
      else resultLoop original_timeout rest (i + 1) elapsed' timeout acc'

/-- `JobManager.result`.  `if self._result:` is truthy only for a
nonempty cached list; a successful full pass stores the list in
`self._result`, while the timeout path leaves the cache untouched. -/
def result (st : JobManagerState) (timeout : Option Int) :
    Except JMError (List (Option QResult)) × JobManagerState :=
  match st.result_cache with
  | some (r :: rs) => (.ok (r :: rs), st)
  | _ =>
      match resultLoop timeout st.jobs 0 0 timeout [] with
      | .ok rs => (.ok rs, { st with result_cache := some rs })
      | .error e => (.error e, st)

/-- The scan loop of `JobManager.error_message`: `job.status()` is
called unguarded (a `JobError` it raises escapes); for an errored handle
the per-job error text is fetched, substituting `"Unknown error."` when
that fetch raises, and each text line is indented by two spaces. -/
def errorMsgLoop : Nat → List Job → Except JobErr (List String)
  | _, [] => .ok []
  | i, j :: rest =>
      match j.statusResult with
      | .error e => .error e
      | .ok s =>
          if s = JobStatus.ERROR then
            let header := "Job " ++ toString i ++ " (job ID=" ++ j.job_id ++
              ") for experiments " ++ toString j.start_index ++ "-" ++
              toString j.end_index ++ ":"
            let msgs := (match j.errorMessageResult with
              | .ok m => pySplitNewline m
              | .error _ => ["Unknown error."]).map
                (fun s => pyRjust s (s.length + 2))
            match errorMsgLoop (i + 1) rest with
            | .error e => .error e
            | .ok restLines => .ok (header :: msgs ++ restLines)
          else errorMsgLoop (i + 1) rest

/-- `JobManager.error_message`.  `if self._error_msg:` is truthy only
for a nonempty cached string; note that neither branch ever assigns
`self._error_msg`, so the state comes back unchanged. -/
def error_message (st : JobManagerState) :
    Except JobErr (Option String) × JobManagerState :=
  if (match st.error_msg_cache with | some m => m != "" | none => false) then
    (.ok st.error_msg_cache, st)
  else
    match errorMsgLoop 0 st.jobs with
    | .error e => (.error e, st)
    | .ok [] => (.ok none, st)
    | .ok (l :: ls) => (.ok (some (joinNewline (l :: ls))), st)

/-! ## Claim C1 -/

/-- C1: for every experiment list and every effective chunk size `c > 0`,
`_split_experiments` produces `⌈L / c⌉` sub-batches; each sub-batch is the
contiguous slice `xs[c*i : c*i + c]` of the original list (hence the
slices are non-overlapping), every sub-batch except possibly the last has
size exactly `c`, every sub-batch is nonempty and no larger than `c`, and
the concatenation of the sub-batches in order is the original list. -/
theorem c1_split_partitioning (xs : List α) (cfg : BackendConfiguration)
    (m : Option Int) (c : Int)
    (hres : effective_chunk cfg m = some c) (hc : 0 < c) :
    split_experiments xs cfg m = .ok (splitChunks c.toNat xs) ∧
    (splitChunks c.toNat xs).length = (xs.length + c.toNat - 1) / c.toNat ∧
    (splitChunks c.toNat xs).flatten = xs ∧
    (∀ l ∈ (splitChunks c.toNat xs).dropLast, l.length = c.toNat) ∧
    (∀ l ∈ splitChunks c.toNat xs, 0 < l.length ∧ l.length ≤ c.toNat) ∧
    (∀ i, i < (splitChunks c.toNat xs).length →
      (splitChunks c.toNat xs)[i]? =
        some ((xs.drop (c.toNat * i)).take c.toNat)) := by
  have hcN : 0 < c.toNat := by omega
  refine ⟨?_, splitChunks_length _ hcN xs, splitChunks_flatten _ hcN xs,
    splitChunks_dropLast _ hcN xs, splitChunks_sizes _ hcN xs,
    fun i hi => splitChunks_getElem _ hcN xs i hi⟩
  rw [split_experiments_eq_effective, hres]
  simp only [sliceLoop]
  rw [if_neg (by omega), if_neg (by omega)]

/-- Witness for C1 at a concrete input: five experiments, backend limit
2, no caller cap. -/
theorem c1_split_partitioning_witness :
    effective_chunk ⟨some 2, true⟩ none = some 2 ∧ (0 : Int) < 2 ∧
    split_experiments [0, 1, 2, 3, 4] ⟨some 2, true⟩ none =
      .ok (splitChunks (2 : Int).toNat [0, 1, 2, 3, 4]) ∧
    (splitChunks (2 : Int).toNat [0, 1, 2, 3, 4]).length =
      (([0, 1, 2, 3, 4] : List Nat).length + (2 : Int).toNat - 1) /
        (2 : Int).toNat ∧
    (splitChunks (2 : Int).toNat [0, 1, 2, 3, 4]).flatten = [0, 1, 2, 3, 4] := by
  have h := c1_split_partitioning [0, 1, 2, 3, 4] ⟨some 2, true⟩ none 2 rfl
    (by decide)
  exact ⟨rfl, by decide, h.1, h.2.1, h.2.2.1⟩

/-! ## Claim C2 -/

/-- C2 counterexample: the claim says the effective chunk size is the
caller cap `M` whenever only the caller cap is given.  With `M = 0` an
effective chunk size of `0` makes the slicing raise `ValueError`, as the
backend-limit-`0` case shows; but with only the caller cap `0` given the
code instead returns the whole list as one sub-batch, because
`elif max_experiments_per_job:` is false for `0`. -/
theorem c2_counterexample :
    split_experiments [(0 : Nat)] ⟨none, true⟩ (some 0) = .ok [[0]] ∧
    split_experiments [(0 : Nat)] ⟨some 0, true⟩ none =
      .error (.valueError "range() arg 3 must not be zero") := by
  exact ⟨rfl, rfl⟩

/-- C2 amended: the chunk size handed to the slicing loop is `min B M`
when both the backend limit `B` and the caller cap `M` are given, `B`
when only `B` is given, and `M` when only a nonzero `M` is given; the
whole list is returned as one sub-batch when neither is given or when
the only cap given is `0` (Python truthiness treats a `0` cap as
absent).  When the resolved chunk size is positive the slicing loop
chunks the list by it. -/
theorem c2_chunk_resolution (xs : List α) (b mm : Int) (op : Bool) :
    (split_experiments xs ⟨some b, op⟩ (some mm) = sliceLoop xs (min b mm)) ∧
    (split_experiments xs ⟨some b, op⟩ none = sliceLoop xs b) ∧
    (mm ≠ 0 → split_experiments xs ⟨none, op⟩ (some mm) = sliceLoop xs mm) ∧
    (split_experiments xs ⟨none, op⟩ (some 0) = .ok [xs]) ∧
    (split_experiments xs ⟨none, op⟩ none = .ok [xs]) ∧
    (0 < min b mm →
      sliceLoop xs (min b mm) = .ok (splitChunks (min b mm).toNat xs)) ∧
    (0 < b → sliceLoop xs b = .ok (splitChunks b.toNat xs)) ∧
    (0 < mm → sliceLoop xs mm = .ok (splitChunks mm.toNat xs)) := by
  refine ⟨rfl, rfl, fun hmm => ?_, by simp [split_experiments], rfl,
    fun h => ?_, fun h => ?_, fun h => ?_⟩
  · simp [split_experiments, hmm]
  · simp only [sliceLoop]; rw [if_neg (by omega), if_neg (by omega)]
  · simp only [sliceLoop]; rw [if_neg (by omega), if_neg (by omega)]
  · simp only [sliceLoop]; rw [if_neg (by omega), if_neg (by omega)]

/-- Witness for C2 at a concrete input: backend limit 2 and caller cap 1
resolve to chunk size 1; a lone caller cap 1 is used as the chunk size. -/
theorem c2_chunk_resolution_witness :
    split_experiments [0, 1, 2] ⟨some 2, true⟩ (some 1) =
      sliceLoop [0, 1, 2] (min 2 1) ∧
    ((1 : Int) ≠ 0) ∧
    split_experiments [0, 1, 2] ⟨none, true⟩ (some 1) = sliceLoop [0, 1, 2] 1 ∧
    (0 < (1 : Int)) ∧
    sliceLoop [0, 1, 2] (1 : Int) = .ok (splitChunks (1 : Int).toNat [0, 1, 2]) := by
  have h := c2_chunk_resolution [0, 1, 2] 2 1 true
  exact ⟨h.1, by decide, h.2.2.1 (by decide), by decide,
    h.2.2.2.2.2.2.2 (by decide)⟩

/-! ## Helper lemmas about `run` -/

/-- Every failing path of `run` raises before any state mutation and
before `executor.submit`. -/
theorem run_error_state (st : JobManagerState) (e : List Experiment)
    (cfg : BackendConfiguration)
    (tr : List Experiment → Except JMError (List Experiment))
    (asm : List Experiment → Except JMError Qobj) (sk : Bool) (m : Option Int)
    (err : JMError) (h : (run st e cfg tr asm sk m).ret = .error err) :
    (run st e cfg tr asm sk m).state = st ∧
    (run st e cfg tr asm sk m).dispatched = none := by
  by_cases hp : (e.any (fun x => x.isSchedule) && !cfg.open_pulse) = true
  · constructor <;> simp [run, hp]
  · by_cases hs : st.submit_called = true
    · constructor <;> simp [run, hp, hs]
    · rcases htr : (if sk then Except.ok e else tr e) with e1 | exps
      · constructor <;> simp [run, hp, hs, htr]
      · rcases hsp : split_experiments exps cfg m with e2 | lst
        · constructor <;> simp [run, hp, hs, htr, hsp]
        · rcases hasm : assembleAll asm lst with e3 | qs
          · constructor <;> simp [run, hp, hs, htr, hsp, hasm]
          · exfalso
            simp [run, hp, hs, htr, hsp, hasm] at h

/-- A successful `run` implies the one-shot flag was clear, sets it, and
dispatches exactly the assembled payloads. -/
theorem run_ok_state (st : JobManagerState) (e : List Experiment)
    (cfg : BackendConfiguration)
    (tr : List Experiment → Except JMError (List Experiment))
    (asm : List Experiment → Except JMError Qobj) (sk : Bool) (m : Option Int)
    (n : Nat) (h : (run st e cfg tr asm sk m).ret = .ok n) :
    st.submit_called = false ∧
    (run st e cfg tr asm sk m).state = { st with submit_called := true } ∧
    ∃ qs, (run st e cfg tr asm sk m).dispatched = some qs ∧ qs.length = n := by
  by_cases hp : (e.any (fun x => x.isSchedule) && !cfg.open_pulse) = true
  · exfalso; simp [run, hp] at h
  · by_cases hs : st.submit_called = true
    · exfalso; simp [run, hp, hs] at h
    · rcases htr : (if sk then Except.ok e else tr e) with e1 | exps
      · exfalso; simp [run, hp, hs, htr] at h
      · rcases hsp : split_experiments exps cfg m with e2 | lst
        · exfalso; simp [run, hp, hs, htr, hsp] at h
        · rcases hasm : assembleAll asm lst with e3 | qs
          · exfalso; simp [run, hp, hs, htr, hsp, hasm] at h
          · have hn : qs.length = n := by
              simpa [run, hp, hs, htr, hsp, hasm] using h
            refine ⟨by simpa using hs, ?_, qs, ?_, hn⟩
            · simp [run, hp, hs, htr, hsp, hasm]
            · simp [run, hp, hs, htr, hsp, hasm]

/-- The pulse-support check is the very first statement of `run`, so it
fires even when the one-shot flag is already set. -/
theorem run_pulse_first (st : JobManagerState) (e : List Experiment)
    (cfg : BackendConfiguration)
    (tr : List Experiment → Except JMError (List Experiment))
    (asm : List Experiment → Except JMError Qobj) (sk : Bool) (m : Option Int)
    (h1 : e.any (fun x => x.isSchedule) = true) (h2 : cfg.open_pulse = false) :
    (run st e cfg tr asm sk m).ret =
      .error (.invalidState "The backend does not support pulse schedules.") := by
  simp [run, h1, h2]

/-- With the one-shot flag set, `run` raises an
`IBMQJobManagerInvalidStateError` (the pulse message or the
already-submitted message). -/
theorem run_submitted (st : JobManagerState) (e : List Experiment)
    (cfg : BackendConfiguration)
    (tr : List Experiment → Except JMError (List Experiment))
    (asm : List Experiment → Except JMError Qobj) (sk : Bool) (m : Option Int)
    (hs : st.submit_called = true) :
    ∃ msg, (run st e cfg tr asm sk m).ret = .error (.invalidState msg) := by
  by_cases hp : (e.any (fun x => x.isSchedule) && !cfg.open_pulse) = true
  · exact ⟨"The backend does not support pulse schedules.", by simp [run, hp]⟩
  · exact ⟨"Jobs were already submitted.", by simp [run, hp, hs]⟩

/-! ## Claim C3 -/

/-- C3 counterexample: with an empty experiment list and neither a
backend limit nor a caller cap, `_split_experiments` returns the whole
(empty) list as ONE sub-batch, so `run()` returns `1`, not `0`, and a
background task carrying one assembled payload is dispatched. -/
theorem c3_counterexample :
    split_experiments ([] : List Experiment) ⟨none, true⟩ none = .ok [[]] ∧
    (run initialState [] ⟨none, true⟩ (fun l => .ok l) (fun _ => .ok ⟨0⟩)
      false none).ret = .ok 1 ∧
    (run initialState [] ⟨none, true⟩ (fun l => .ok l) (fun _ => .ok ⟨0⟩)
      false none).dispatched = some [⟨0⟩] := by
  exact ⟨rfl, rfl, rfl⟩

/-- C3 amended: whenever a backend limit or caller cap resolves to a
nonzero chunk size, running an empty experiment list yields zero
sub-batches, raises nothing, and makes `run()` return `0`; a background
task is still dispatched, but it carries zero payloads to submit.  (When
neither is given, the empty list instead forms one empty sub-batch and
`run()` returns `1`, as the counterexample shows.) -/
theorem c3_empty_run (st : JobManagerState) (cfg : BackendConfiguration)
    (m : Option Int) (tr : List Experiment → Except JMError (List Experiment))
    (asm : List Experiment → Except JMError Qobj) (sk : Bool) (c : Int)
    (hsub : st.submit_called = false)
    (htr : sk = false → tr [] = .ok [])
    (hres : effective_chunk cfg m = some c) (hc : c ≠ 0) :
    run st [] cfg tr asm sk m =
      ⟨.ok 0, { st with submit_called := true }, some []⟩ := by
  have hsplit : split_experiments ([] : List Experiment) cfg m = .ok [] := by
    rw [split_experiments_eq_effective, hres]
    simp only [sliceLoop]
    rw [if_neg hc]
    by_cases hneg : c < 0
    · rw [if_pos hneg]
    · rw [if_neg hneg, splitChunks_nil]
  cases sk with
  | true => simp [run, hsub, hsplit, assembleAll]
  | false => simp [run, hsub, htr rfl, hsplit, assembleAll]

/-- Witness for C3 (amended) at a concrete input: backend limit 3, no
caller cap, empty experiment list. -/
theorem c3_empty_run_witness :
    initialState.submit_called = false ∧
    effective_chunk ⟨some 3, true⟩ none = some 3 ∧ ((3 : Int) ≠ 0) ∧
    run initialState [] ⟨some 3, true⟩ (fun l => .ok l) (fun _ => .ok ⟨0⟩)
      false none =
      ⟨.ok 0, { initialState with submit_called := true }, some []⟩ :=
  ⟨rfl, rfl, by decide,
   c3_empty_run initialState ⟨some 3, true⟩ none (fun l => .ok l)
     (fun _ => .ok ⟨0⟩) false 3 rfl (fun _ => rfl) rfl (by decide)⟩

/-! ## Claim C7 -/

/-- C7: once `run` has completed successfully on a manager, the one-shot
flag has transitioned from false to true, and every subsequent `run`
call — with any arguments whatsoever — raises an
`IBMQJobManagerInvalidStateError` and leaves the state (hence the flag)
unchanged. -/
theorem c7_run_one_shot (st : JobManagerState) (e : List Experiment)
    (cfg : BackendConfiguration)
    (tr : List Experiment → Except JMError (List Experiment))
    (asm : List Experiment → Except JMError Qobj) (sk : Bool) (m : Option Int)
    (n : Nat) (h : (run st e cfg tr asm sk m).ret = .ok n) :
    st.submit_called = false ∧
    (run st e cfg tr asm sk m).state.submit_called = true ∧
    (∀ (e2 : List Experiment) (cfg2 : BackendConfiguration)
        (tr2 : List Experiment → Except JMError (List Experiment))
        (asm2 : List Experiment → Except JMError Qobj)
        (sk2 : Bool) (m2 : Option Int),
      (∃ msg, (run (run st e cfg tr asm sk m).state e2 cfg2 tr2 asm2 sk2
          m2).ret = .error (.invalidState msg)) ∧
      (run (run st e cfg tr asm sk m).state e2 cfg2 tr2 asm2 sk2 m2).state =
        (run st e cfg tr asm sk m).state) := by
  obtain ⟨hf, hstate, _⟩ := run_ok_state st e cfg tr asm sk m n h
  refine ⟨hf, by rw [hstate], fun e2 cfg2 tr2 asm2 sk2 m2 => ?_⟩
  have hs1 : (run st e cfg tr asm sk m).state.submit_called = true := by
    rw [hstate]
  obtain ⟨msg, hmsg⟩ := run_submitted _ e2 cfg2 tr2 asm2 sk2 m2 hs1
  exact ⟨⟨msg, hmsg⟩,
    (run_error_state _ e2 cfg2 tr2 asm2 sk2 m2 _ hmsg).1⟩

/-- Witness for C7 at a concrete input: a first `run` that succeeds with
one sub-job, followed by a second call that fails with InvalidState. -/
theorem c7_run_one_shot_witness :
    (run initialState [⟨false, 7⟩] ⟨some 1, true⟩ (fun l => .ok l)
      (fun _ => .ok ⟨1⟩) true none).ret = .ok 1 ∧
    initialState.submit_called = false ∧
    (run initialState [⟨false, 7⟩] ⟨some 1, true⟩ (fun l => .ok l)
      (fun _ => .ok ⟨1⟩) true none).state.submit_called = true ∧
    (∃ msg, (run (run initialState [⟨false, 7⟩] ⟨some 1, true⟩
        (fun l => .ok l) (fun _ => .ok ⟨1⟩) true none).state
        [] ⟨none, true⟩ (fun l => .ok l) (fun _ => .ok ⟨1⟩) true none).ret =
      .error (.invalidState msg)) := by
  have h := c7_run_one_shot initialState [⟨false, 7⟩] ⟨some 1, true⟩
    (fun l => .ok l) (fun _ => .ok ⟨1⟩) true none 1 rfl
  exact ⟨rfl, h.1, h.2.1,
    (h.2.2 [] ⟨none, true⟩ (fun l => .ok l) (fun _ => .ok ⟨1⟩) true none).1⟩

/-! ## Claim C10 -/

/-- C10: every failing path of `run` (pulse-unsupported, already
submitted, transpile/assemble/partition raising) leaves the manager
state — in particular the one-shot flag — unchanged and dispatches no
background work; a successful `run` sets the flag and dispatches exactly
the assembled payloads; and the pulse-support check precedes the
one-shot check, so an unsupported pulse schedule reports the pulse
error even on a manager whose flag is already set. -/
theorem c10_run_prevalidation (st : JobManagerState) (e : List Experiment)
    (cfg : BackendConfiguration)
    (tr : List Experiment → Except JMError (List Experiment))
    (asm : List Experiment → Except JMError Qobj) (sk : Bool) (m : Option Int) :
    (∀ err, (run st e cfg tr asm sk m).ret = .error err →
      (run st e cfg tr asm sk m).state = st ∧
      (run st e cfg tr asm sk m).dispatched = none) ∧
    (∀ n, (run st e cfg tr asm sk m).ret = .ok n →
      (run st e cfg tr asm sk m).state = { st with submit_called := true } ∧
      ∃ qs, (run st e cfg tr asm sk m).dispatched = some qs ∧ qs.length = n) ∧
    (e.any (fun x => x.isSchedule) = true → cfg.open_pulse = false →
      (run st e cfg tr asm sk m).ret =
        .error (.invalidState "The backend does not support pulse schedules.")) := by
  exact ⟨fun err h => run_error_state st e cfg tr asm sk m err h,
    fun n h => ⟨(run_ok_state st e cfg tr asm sk m n h).2.1,
      (run_ok_state st e cfg tr asm sk m n h).2.2⟩,
    fun h1 h2 => run_pulse_first st e cfg tr asm sk m h1 h2⟩

/-- Witness for C10 at a concrete input: a pulse schedule on a
non-pulse backend, with the one-shot flag already set — the call reports
the pulse error and changes nothing. -/
theorem c10_run_prevalidation_witness :
    ([⟨true, 0⟩] : List Experiment).any (fun x => x.isSchedule) = true ∧
    (⟨none, false⟩ : BackendConfiguration).open_pulse = false ∧
    (run { initialState with submit_called := true } [⟨true, 0⟩]
      ⟨none, false⟩ (fun l => .ok l) (fun _ => .ok ⟨0⟩) false none).ret =
      .error (.invalidState "The backend does not support pulse schedules.") ∧
    (run { initialState with submit_called := true } [⟨true, 0⟩]
      ⟨none, false⟩ (fun l => .ok l) (fun _ => .ok ⟨0⟩) false none).state =
      { initialState with submit_called := true } := by
  have h := c10_run_prevalidation { initialState with submit_called := true }
    [⟨true, 0⟩] ⟨none, false⟩ (fun l => .ok l) (fun _ => .ok ⟨0⟩) false none
  have hret := h.2.2 (by decide) rfl
  exact ⟨by decide, rfl, hret, (h.1 _ hret).1⟩

/-! ## Claim C4 -/

theorem lastErr_some (l : List JobErr) : ∀ (e : JobErr),
    ∃ x, lastErr l (some e) = some x := by
  induction l with
  | nil => exact fun e => ⟨e, rfl⟩
  | cons f rest ih => exact fun e => ih f

/-- When every `cancel()` returns normally the cleanup loop cancels all
handles and raises nothing. -/
theorem cancelLoop_ok (js : List Job) (h : ∀ j ∈ js, j.cancelResult = .ok ()) :
    cancelLoop js = (js, none) := by
  induction js with
  | nil => rfl
  | cons j rest ih =>
      have hj := h j (List.mem_cons_self j rest)
      simp [cancelLoop, hj,
        ih (fun x hx => h x (List.mem_cons_of_mem j hx))]

/-- C4 counterexample: with two submission failures, the completion
handler records the LAST encountered failure, not the first — each
failure overwrites `self._submit_exception`. -/
theorem c4_counterexample :
    (submit_callback initialState
        [.err ⟨"first submit failure"⟩, .err ⟨"second submit failure"⟩]
      ).state.submit_exception = some ⟨"second submit failure"⟩ ∧
    (⟨"second submit failure"⟩ : JobErr) ≠ ⟨"first submit failure"⟩ := by
  exact ⟨rfl, by decide⟩

/-- C4 amended: for every worker outcome sequence containing at least
one submission failure, provided every successful handle's `cancel()`
returns normally (an exception from `cancel()` instead aborts the
cleanup, see C5), the completion handler invokes `cancel()` on every
successfully submitted handle, leaves the handle collection empty (so a
later `jobs()` call returns an empty collection), records the LAST
encountered failure for later surfacing, and signals the readiness
gate. -/
theorem c4_callback_failure_cleanup (st : JobManagerState)
    (results : List SubmitOutcome)
    (hjobs : st.jobs = []) (hex : st.submit_exception = none)
    (herr : errorsOf results ≠ [])
    (hcancel : ∀ j ∈ successesOf results, j.cancelResult = .ok ()) :
    (submit_callback st results).state.jobs = [] ∧
    jobsQuery (submit_callback st results).state = [] ∧
    (submit_callback st results).cancelAttempted = successesOf results ∧
    (submit_callback st results).state.submit_exception =
      lastErr (errorsOf results) none ∧
    (submit_callback st results).state.submit_done = true ∧
    (submit_callback st results).raised = none := by
  obtain ⟨ev, hev⟩ : ∃ e, lastErr (errorsOf results) none = some e := by
    rcases hl : errorsOf results with _ | ⟨e, rest⟩
    · exact absurd hl herr
    · simpa [lastErr] using lastErr_some rest e
  have hpo := partitionOutcomes_eq results [] none
  simp only [List.nil_append] at hpo
  have hcl := cancelLoop_ok (successesOf results) hcancel
  simp [submit_callback, hjobs, hex, hpo, hev, hcl, jobsQuery]

/-- Witness for C4 (amended) at a concrete input: one success followed
by one failure. -/
theorem c4_callback_failure_cleanup_witness :
    initialState.jobs = [] ∧ initialState.submit_exception = none ∧
    errorsOf [.job ⟨"a", "na", 0, 1, .ok .RUNNING, .ok "", .ok 0, .ok (), 0,
        .ok ⟨0⟩⟩, .err ⟨"boom"⟩] ≠ [] ∧
    (submit_callback initialState
        [.job ⟨"a", "na", 0, 1, .ok .RUNNING, .ok "", .ok 0, .ok (), 0,
          .ok ⟨0⟩⟩, .err ⟨"boom"⟩]).state.jobs = [] ∧
    (submit_callback initialState
        [.job ⟨"a", "na", 0, 1, .ok .RUNNING, .ok "", .ok 0, .ok (), 0,
          .ok ⟨0⟩⟩, .err ⟨"boom"⟩]).cancelAttempted =
      successesOf [.job ⟨"a", "na", 0, 1, .ok .RUNNING, .ok "", .ok 0,
        .ok (), 0, .ok ⟨0⟩⟩, .err ⟨"boom"⟩] ∧
    (submit_callback initialState
        [.job ⟨"a", "na", 0, 1, .ok .RUNNING, .ok "", .ok 0, .ok (), 0,
          .ok ⟨0⟩⟩, .err ⟨"boom"⟩]).state.submit_exception =
      lastErr (errorsOf [.job ⟨"a", "na", 0, 1, .ok .RUNNING, .ok "", .ok 0,
        .ok (), 0, .ok ⟨0⟩⟩, .err ⟨"boom"⟩]) none := by
  have h := c4_callback_failure_cleanup initialState
    [.job ⟨"a", "na", 0, 1, .ok .RUNNING, .ok "", .ok 0, .ok (), 0, .ok ⟨0⟩⟩,
     .err ⟨"boom"⟩] rfl rfl (by decide)
    (by
      intro j hj
      rw [show successesOf [SubmitOutcome.job ⟨"a", "na", 0, 1, .ok .RUNNING,
        .ok "", .ok 0, .ok (), 0, .ok ⟨0⟩⟩, .err ⟨"boom"⟩] =
        [⟨"a", "na", 0, 1, .ok .RUNNING, .ok "", .ok 0, .ok (), 0,
          .ok ⟨0⟩⟩] from rfl] at hj
      rw [List.mem_singleton] at hj
      subst hj
      rfl)
  exact ⟨rfl, rfl, by decide, h.1, h.2.2.1, h.2.2.2.1⟩

/-! ## Claim C5 -/

/-- C5 counterexample: when a compensating `cancel()` itself raises, the
exception escapes the completion handler before
`self._submit_done_event.set()`, so the readiness gate is NOT signaled
(and the handle collection is not emptied either). -/
theorem c5_counterexample :
    (submit_callback initialState
        [.job ⟨"j1", "n1", 0, 1, .ok .RUNNING, .ok "", .ok 0,
          .error ⟨"cancel failed"⟩, 0, .ok ⟨0⟩⟩,
         .err ⟨"submit failure"⟩]).state.submit_done = false ∧
    (submit_callback initialState
        [.job ⟨"j1", "n1", 0, 1, .ok .RUNNING, .ok "", .ok 0,
          .error ⟨"cancel failed"⟩, 0, .ok ⟨0⟩⟩,
         .err ⟨"submit failure"⟩]).raised = some ⟨"cancel failed"⟩ := by
  exact ⟨rfl, rfl⟩

/-- C5 amended: starting from an unsignaled gate, one execution of the
completion handler signals the readiness gate exactly when it runs to
completion — that is, exactly when no compensating `cancel()` call
raises; a raising `cancel()` escapes the handler and leaves the gate
unsignaled (so a query call could block forever in that case). -/
theorem c5_gate_signal (st : JobManagerState) (results : List SubmitOutcome)
    (hdone : st.submit_done = false) :
    ((submit_callback st results).state.submit_done = true ↔
      (submit_callback st results).raised = none) := by
  rcases hpo : partitionOutcomes results st.jobs st.submit_exception with ⟨jobs, ex⟩
  simp only [submit_callback, hpo]
  cases ex with
  | none => simp
  | some e =>
      rcases hcl : cancelLoop jobs with ⟨att, cerr⟩
      simp only [hcl]
      cases cerr with
      | none => simp
      | some ce => simp [hdone]

/-- Witness for C5 (amended) at a concrete input: an empty outcome
sequence signals the gate and raises nothing. -/
theorem c5_gate_signal_witness :
    initialState.submit_done = false ∧
    ((submit_callback initialState []).state.submit_done = true ↔
      (submit_callback initialState []).raised = none) :=
  ⟨rfl, c5_gate_signal initialState [] rfl⟩

/-! ## Claim C6 -/

/-- Cumulative wall-clock time of the first `k` result fetches. -/
def cumDur (jobs : List Job) (k : Nat) : Int :=
  ((jobs.take k).map (fun j => j.fetchDuration)).sum

theorem cumDur_zero (jobs : List Job) : cumDur jobs 0 = 0 := by
  simp [cumDur]

theorem cumDur_cons (j : Job) (rest : List Job) (k : Nat) :
    cumDur (j :: rest) (k + 1) = j.fetchDuration + cumDur rest k := by
  simp [cumDur]

/-- If every prefix of fetches stays strictly under the budget, the
fetch loop completes and returns one entry per handle, in order. -/
theorem resultLoop_ok (T : Int) (jobs : List Job) :
    ∀ (i : Nat) (elapsed : Int) (curT : Option Int) (acc : List (Option QResult)),
      pyTruthy curT = true →
      (∀ k, k < jobs.length → elapsed + cumDur jobs (k + 1) < T) →
      resultLoop (some T) jobs i elapsed curT acc =
        .ok (acc ++ jobs.map fetchOutcome) := by
  induction jobs with
  | nil => intro i elapsed curT acc hcur hbound; simp [resultLoop]
  | cons j rest ih =>
      intro i elapsed curT acc hcur hbound
      have h0 : elapsed + j.fetchDuration < T := by
        have h1 := hbound 0 (by simp)
        rw [cumDur_cons, cumDur_zero] at h1
        linarith
      simp only [resultLoop, hcur, if_true]
      rw [if_neg (by linarith)]
      rw [ih (i + 1) (elapsed + j.fetchDuration)
            (some (T - (elapsed + j.fetchDuration)))
            (acc ++ [fetchOutcome j])
            (by simp only [pyTruthy, bne_iff_ne, ne_eq]
                intro hz
                have : T = elapsed + j.fetchDuration := by linarith
                linarith)
            (by intro k hk
                have h2 := hbound (k + 1) (by simp; omega)
                rw [cumDur_cons] at h2
                linarith)]
      simp

/-- If some prefix of fetches reaches or exceeds the budget, the fetch
loop raises `IBMQJobManagerTimeoutError` at the first handle where that
happens, naming that handle and its index. -/
theorem resultLoop_err (T : Int) (jobs : List Job) :
    ∀ (i : Nat) (elapsed : Int) (curT : Option Int) (acc : List (Option QResult)),
      pyTruthy curT = true →
      (∃ k, k < jobs.length ∧ T ≤ elapsed + cumDur jobs (k + 1)) →
      ∃ k0 jb, jobs[k0]? = some jb ∧ k0 < jobs.length ∧
        (∀ k', k' < k0 → elapsed + cumDur jobs (k' + 1) < T) ∧
        T ≤ elapsed + cumDur jobs (k0 + 1) ∧
        resultLoop (some T) jobs i elapsed curT acc =
          .error (.timeoutError (timeoutMsg jb (i + k0))) := by
  induction jobs with
  | nil =>
      intro i elapsed curT acc hcur hex
      obtain ⟨k, hk, _⟩ := hex
      simp at hk
  | cons j rest ih =>
      intro i elapsed curT acc hcur hex
      by_cases h0 : T ≤ elapsed + j.fetchDuration
      · refine ⟨0, j, by simp, by simp, fun k' hk' => absurd hk' (Nat.not_lt_zero k'),
          ?_, ?_⟩
        · rw [cumDur_cons, cumDur_zero]; linarith
        · simp only [resultLoop, hcur, if_true]
          rw [if_pos (by linarith)]
          simp
      · obtain ⟨k, hk, hTk⟩ := hex
        rcases k with _ | k'
        · exfalso
          rw [cumDur_cons, cumDur_zero] at hTk
          exact h0 (by linarith)
        · have hlt0 : elapsed + j.fetchDuration < T := by linarith [not_le.mp h0]
          have hex2 : ∃ k, k < rest.length ∧
              T ≤ (elapsed + j.fetchDuration) + cumDur rest (k + 1) := by
            refine ⟨k', by simpa using hk, ?_⟩
            rw [cumDur_cons] at hTk
            linarith
          have hcur2 : pyTruthy (some (T - (elapsed + j.fetchDuration))) = true := by
            simp only [pyTruthy, bne_iff_ne, ne_eq]
            intro hz
            have : T = elapsed + j.fetchDuration := by linarith
            linarith
          obtain ⟨k0, jb, hjb, hk0, hlt, hge, hloop⟩ :=
            ih (i + 1) (elapsed + j.fetchDuration)
              (some (T - (elapsed + j.fetchDuration)))
              (acc ++ [fetchOutcome j]) hcur2 hex2
          refine ⟨k0 + 1, jb, by simpa using hjb,
            by simpa using Nat.succ_lt_succ hk0, ?_, ?_, ?_⟩
          · intro k' hk'
            rcases k' with _ | k''
            · rw [cumDur_cons, cumDur_zero]; linarith
            · have h3 := hlt k'' (by omega)
              rw [cumDur_cons]
              linarith
          · rw [cumDur_cons]; linarith
          · simp only [resultLoop, hcur, if_true]
            rw [if_neg (by linarith)]
            rw [hloop]
            have harith : i + 1 + k0 = i + (k0 + 1) := by omega
            rw [harith]

/-- C6 amended: for a manager with an empty result cache and a nonzero
timeout budget `T`, `result(T)` raises `IBMQJobManagerTimeoutError` if
and only if at some handle the cumulative fetch time REACHES OR EXCEEDS
`T` (the check runs after each fetch, including the last, and fires on
equality); the error names the first such handle and its index, and the
cache is left empty.  If every cumulative prefix stays strictly below
`T`, the call returns one entry per handle in order, stores the list in
the cache, and every subsequent call — with any timeout argument —
returns that same list. -/
theorem c6_result_timeout (st : JobManagerState) (T : Int)
    (hcache : st.result_cache = none) (hT : T ≠ 0) :
    ((∀ k, k < st.jobs.length → cumDur st.jobs (k + 1) < T) →
      result st (some T) =
        (.ok (st.jobs.map fetchOutcome),
         { st with result_cache := some (st.jobs.map fetchOutcome) }) ∧
      (st.jobs.map fetchOutcome).length = st.jobs.length ∧
      (∀ T' : Option Int,
        (result { st with result_cache := some (st.jobs.map fetchOutcome) }
          T').1 = .ok (st.jobs.map fetchOutcome))) ∧
    ((∃ k, k < st.jobs.length ∧ T ≤ cumDur st.jobs (k + 1)) →
      ∃ k0 jb, st.jobs[k0]? = some jb ∧
        (∀ k', k' < k0 → cumDur st.jobs (k' + 1) < T) ∧
        T ≤ cumDur st.jobs (k0 + 1) ∧
        result st (some T) =
          (.error (.timeoutError (timeoutMsg jb k0)), st)) := by
  have hcur : pyTruthy (some T) = true := by
    simp [pyTruthy, bne_iff_ne, hT]
  constructor
  · intro hbound
    have hloop := resultLoop_ok T st.jobs 0 0 (some T) [] hcur
      (by intro k hk; have := hbound k hk; linarith)
    refine ⟨?_, by simp, ?_⟩
    · simp [result, hcache, hloop]
    · intro T'
      rcases hmap : st.jobs.map fetchOutcome with _ | ⟨r, rs⟩
      · have hjobs : st.jobs = [] := List.map_eq_nil_iff.mp hmap
        simp [result, hjobs, resultLoop]
      · simp [result, hmap]
  · intro hex
    obtain ⟨k0, jb, hjb, _, hlt, hge, hloop⟩ :=
      resultLoop_err T st.jobs 0 0 (some T) [] hcur
        (by obtain ⟨k, hk, hTk⟩ := hex; exact ⟨k, hk, by linarith⟩)
    refine ⟨k0, jb, hjb, ?_, ?_, ?_⟩
    · intro k' hk'; have := hlt k' hk'; linarith
    · linarith [hge]
    · rw [Nat.zero_add] at hloop
      simp [result, hcache, hloop]

/-- C6 counterexample: one handle whose fetch takes exactly the whole
budget.  The cumulative fetch time (5) does NOT exceed the timeout
(T = 5), yet the call raises `IBMQJobManagerTimeoutError`, because the
source raises when the remaining budget drops to zero OR below; the
claimed strict "exceeds" condition is therefore wrong on the code. -/
theorem c6_counterexample :
    (result { initialState with
        jobs := [⟨"jx", "nx", 0, 3, .ok .DONE, .ok "", .ok 0, .ok (), 5,
          .ok ⟨9⟩⟩] } (some 5)).1 =
      .error (.timeoutError
        (timeoutMsg ⟨"jx", "nx", 0, 3, .ok .DONE, .ok "", .ok 0, .ok (), 5,
          .ok ⟨9⟩⟩ 0)) ∧
    cumDur [⟨"jx", "nx", 0, 3, .ok .DONE, .ok "", .ok 0, .ok (), 5,
      .ok ⟨9⟩⟩] 1 ≤ 5 ∧
    (result { initialState with
        jobs := [⟨"jx", "nx", 0, 3, .ok .DONE, .ok "", .ok 0, .ok (), 5,
          .ok ⟨9⟩⟩] } (some 5)).2.result_cache = none := by
  refine ⟨by decide, by decide, by decide⟩

/-- Witness for C6 (amended) at a concrete input: one handle fetching in
1 second against a budget of 5. -/
theorem c6_result_timeout_witness :
    ({ initialState with
        jobs := [⟨"jw", "nw", 0, 2, .ok .DONE, .ok "", .ok 0, .ok (), 1,
          .ok ⟨4⟩⟩] } : JobManagerState).result_cache = none ∧
    ((5 : Int) ≠ 0) ∧
    (∀ k, k < ({ initialState with
        jobs := [⟨"jw", "nw", 0, 2, .ok .DONE, .ok "", .ok 0, .ok (), 1,
          .ok ⟨4⟩⟩] } : JobManagerState).jobs.length →
      cumDur ({ initialState with
        jobs := [⟨"jw", "nw", 0, 2, .ok .DONE, .ok "", .ok 0, .ok (), 1,
          .ok ⟨4⟩⟩] } : JobManagerState).jobs (k + 1) < 5) ∧
    result { initialState with
        jobs := [⟨"jw", "nw", 0, 2, .ok .DONE, .ok "", .ok 0, .ok (), 1,
          .ok ⟨4⟩⟩] } (some 5) =
      (.ok (({ initialState with
          jobs := [⟨"jw", "nw", 0, 2, .ok .DONE, .ok "", .ok 0, .ok (), 1,
            .ok ⟨4⟩⟩] } : JobManagerState).jobs.map fetchOutcome),
       { ({ initialState with
          jobs := [⟨"jw", "nw", 0, 2, .ok .DONE, .ok "", .ok 0, .ok (), 1,
            .ok ⟨4⟩⟩] } : JobManagerState) with
         result_cache := some (({ initialState with
          jobs := [⟨"jw", "nw", 0, 2, .ok .DONE, .ok "", .ok 0, .ok (), 1,
            .ok ⟨4⟩⟩] } : JobManagerState).jobs.map fetchOutcome) }) ∧
    (result { ({ initialState with
          jobs := [⟨"jw", "nw", 0, 2, .ok .DONE, .ok "", .ok 0, .ok (), 1,
            .ok ⟨4⟩⟩] } : JobManagerState) with
         result_cache := some (({ initialState with
          jobs := [⟨"jw", "nw", 0, 2, .ok .DONE, .ok "", .ok 0, .ok (), 1,
            .ok ⟨4⟩⟩] } : JobManagerState).jobs.map fetchOutcome) } none).1 =
      .ok (({ initialState with
          jobs := [⟨"jw", "nw", 0, 2, .ok .DONE, .ok "", .ok 0, .ok (), 1,
            .ok ⟨4⟩⟩] } : JobManagerState).jobs.map fetchOutcome) := by
  have hb : ∀ k, k < ({ initialState with
      jobs := [⟨"jw", "nw", 0, 2, .ok .DONE, .ok "", .ok 0, .ok (), 1,
        .ok ⟨4⟩⟩] } : JobManagerState).jobs.length →
      cumDur ({ initialState with
        jobs := [⟨"jw", "nw", 0, 2, .ok .DONE, .ok "", .ok 0, .ok (), 1,
          .ok ⟨4⟩⟩] } : JobManagerState).jobs (k + 1) < 5 := by decide
  have h := c6_result_timeout { initialState with
      jobs := [⟨"jw", "nw", 0, 2, .ok .DONE, .ok "", .ok 0, .ok (), 1,
        .ok ⟨4⟩⟩] } 5 rfl (by norm_num)
  exact ⟨rfl, by norm_num, hb, (h.1 hb).1, (h.1 hb).2.2 none⟩

/-! ## Claim C8 -/

/-- C8: the claim is right about the scan (no value exactly when no
handle is in the ERROR state, "Unknown error." substituted when the
per-job error text fetch raises), but the code NEVER assigns
`self._error_msg` — the cache field is read at the top of
`error_message` yet no branch writes it, so every call recomputes the
report and the cache stays `None` forever.  Evaluated at concrete
failing inputs: an errored handle produces a report, yet the state (in
particular `error_msg_cache`) is unchanged; indeed `error_message`
never changes the state at all. -/
theorem c8_error_message_cache_bug :
    (error_message { initialState with
        jobs := [⟨"j0", "n0", 0, 5, .ok .ERROR, .ok "boom", .ok 0, .ok (), 0,
          .error ⟨"gone"⟩⟩] }).1 =
      .ok (some ("Job 0 (job ID=j0) for experiments 0-5:" ++ "\n" ++
        "  boom")) ∧
    (error_message { initialState with
        jobs := [⟨"j0", "n0", 0, 5, .ok .ERROR, .ok "boom", .ok 0, .ok (), 0,
          .error ⟨"gone"⟩⟩] }).2.error_msg_cache = none ∧
    (error_message { initialState with
        jobs := [⟨"j1", "n1", 2, 4, .ok .ERROR, .error ⟨"no msg"⟩, .ok 0,
          .ok (), 0, .error ⟨"gone"⟩⟩] }).1 =
      .ok (some ("Job 0 (job ID=j1) for experiments 2-4:" ++ "\n" ++
        "  Unknown error.")) ∧
    (error_message { initialState with
        jobs := [⟨"j2", "n2", 0, 1, .ok .DONE, .ok "", .ok 0, .ok (), 0,
          .ok ⟨0⟩⟩] }).1 = .ok none ∧
    (∀ s : JobManagerState, (error_message s).2 = s) := by
  refine ⟨by decide, by decide, by decide, by decide, ?_⟩
  intro s
  simp only [error_message]
  split
  · rfl
  · split <;> rfl

/-! ## Claim C9 -/

/-- The status entry a handle contributes to `status()`. -/
def statusOf (j : Job) : Option JobStatus :=
  match j.statusResult with | .ok s => some s | .error _ => none

theorem statusList_eq_map (jobs : List Job) :
    statusList jobs = jobs.map statusOf := rfl

/-- The four status categories the summary report tallies. -/
def inSummaryCategories (s : Option JobStatus) : Bool :=
  s == some JobStatus.DONE || s == some JobStatus.ERROR ||
    s == some JobStatus.CANCELLED || s == some JobStatus.RUNNING

theorem count_summary_categories (sts : List (Option JobStatus)) :
    sts.count (some JobStatus.DONE) + sts.count (some JobStatus.ERROR) +
      sts.count (some JobStatus.CANCELLED) +
      sts.count (some JobStatus.RUNNING) =
      (sts.filter inSummaryCategories).length := by
  induction sts with
  | nil => simp
  | cons s t ih =>
      rcases s with _ | s
      · simpa [List.count_cons, List.filter_cons, inSummaryCategories] using ih
      · cases s <;>
          simp [List.count_cons, List.filter_cons, inSummaryCategories] <;>
          omega

/-- One detail block of the report as the spec describes it: five header
lines for handle `i` (index marker, job ID, name, status text,
experiment index range) followed by the queue-position line for a queued
handle or the indented error text for an errored handle.  Comparison
definition for the refinement statement in `c9_report_structure`;
fetched values default when a fetch fails, a case excluded there by
hypothesis. -/
def detailBlock (i : Nat) (p : Option JobStatus × Job) : List String :=
  ["  - Job " ++ toString i ++ " -",
   "    job ID: " ++ p.2.job_id,
   "    name: " ++ p.2.name,
   "    status: " ++ (match p.1 with | some s => s.value | none => "Unknown"),
   "    experiments: " ++ toString p.2.start_index ++ "-" ++
     toString p.2.end_index] ++
  (match p.1 with
   | some JobStatus.QUEUED =>
       ["    queue position: " ++
         toString (p.2.queuePositionResult.toOption.getD 0)]
   | some JobStatus.ERROR =>
       "    error_messsage:" ::
         (pySplitNewline (p.2.errorMessageResult.toOption.getD "")).map
           (fun s => pyRjust s (s.length + 6))
   | _ => [])

/-- The per-handle detail blocks, one per handle, in order. -/
def detailBlocks : Nat → List (Option JobStatus × Job) → List (List String)
  | _, [] => []
  | i, p :: rest => detailBlock i p :: detailBlocks (i + 1) rest

theorem detailBlocks_length :
    ∀ (l : List (Option JobStatus × Job)) (i : Nat),
      (detailBlocks i l).length = l.length := by
  intro l
  induction l with
  | nil => intro i; rfl
  | cons p rest ih => intro i; simp [detailBlocks, ih]

theorem detailBlocks_getElem :
    ∀ (l : List (Option JobStatus × Job)) (i k : Nat),
      (detailBlocks i l)[k]? = l[k]?.map (fun p => detailBlock (i + k) p) := by
  intro l
  induction l with
  | nil => intro i k; simp [detailBlocks]
  | cons p rest ih =>
      intro i k
      cases k with
      | zero => simp [detailBlocks]
      | succ k2 =>
          simp only [detailBlocks, List.getElem?_cons_succ]
          have harith : i + 1 + k2 = i + (k2 + 1) := by omega
          rw [ih (i + 1) k2, harith]

/-- The detail loop produces exactly the concatenation of the
per-handle blocks, provided the unguarded per-handle fetches
(`queue_position()` for queued handles, `error_message()` for errored
handles) succeed. -/
theorem detailLoop_blocks :
    ∀ (l : List (Option JobStatus × Job)) (i : Nat),
      (∀ p ∈ l,
        (p.1 = some JobStatus.QUEUED →
          ∃ qp, p.2.queuePositionResult = .ok qp) ∧
        (p.1 = some JobStatus.ERROR →
          ∃ msg, p.2.errorMessageResult = .ok msg)) →
      detailLoop i l = .ok (detailBlocks i l).flatten := by
  intro l
  induction l with
  | nil => intro i _; rfl
  | cons p rest ih =>
      intro i h
      obtain ⟨hq, he⟩ := h p (List.mem_cons_self p rest)
      have hrest := fun x hx => h x (List.mem_cons_of_mem p hx)
      rcases p with ⟨status, job⟩
      rcases status with _ | st
      · simp [detailLoop, detailBlocks, detailBlock, ih (i + 1) hrest]
        decide
      · cases st
        case QUEUED =>
          obtain ⟨qp, hqp⟩ := hq rfl
          have hqp2 : job.queuePositionResult = Except.ok qp := hqp
          simp [detailLoop, detailBlocks, detailBlock, hqp2, Except.toOption,
            ih (i + 1) hrest]
        case ERROR =>
          obtain ⟨msg, hmsg⟩ := he rfl
          have hmsg2 : job.errorMessageResult = Except.ok msg := hmsg
          simp [detailLoop, detailBlocks, detailBlock, hmsg2, Except.toOption,
            ih (i + 1) hrest]
        all_goals
          simp [detailLoop, detailBlocks, detailBlock, ih (i + 1) hrest]

theorem mem_zip_map_statusOf :
    ∀ (jobs : List Job) (p : Option JobStatus × Job),
      p ∈ (jobs.map statusOf).zip jobs → p.1 = statusOf p.2 ∧ p.2 ∈ jobs := by
  intro jobs
  induction jobs with
  | nil => intro p hp; simp at hp
  | cons j rest ih =>
      intro p hp
      simp only [List.map_cons, List.zip_cons_cons, List.mem_cons] at hp
      rcases hp with rfl | hp
      · exact ⟨rfl, List.mem_cons_self _ _⟩
      · obtain ⟨h1, h2⟩ := ih p hp
        exact ⟨h1, List.mem_cons_of_mem _ h2⟩

/-- C9 counterexample: one handle whose status is QUEUED.  The four
per-status-category counts of the summary report (DONE, ERROR,
CANCELLED, RUNNING) sum to `0`, but the handle count is `1` — the claim
that the counts sum to the total handle count is false whenever some
handle is in a status outside those four categories. -/
theorem c9_counterexample :
    (statusList [⟨"q", "qn", 0, 2, .ok .QUEUED, .ok "", .ok 3, .ok (), 0,
        .ok ⟨1⟩⟩]).count (some JobStatus.DONE) +
      (statusList [⟨"q", "qn", 0, 2, .ok .QUEUED, .ok "", .ok 3, .ok (), 0,
        .ok ⟨1⟩⟩]).count (some JobStatus.ERROR) +
      (statusList [⟨"q", "qn", 0, 2, .ok .QUEUED, .ok "", .ok 3, .ok (), 0,
        .ok ⟨1⟩⟩]).count (some JobStatus.CANCELLED) +
      (statusList [⟨"q", "qn", 0, 2, .ok .QUEUED, .ok "", .ok 3, .ok (), 0,
        .ok ⟨1⟩⟩]).count (some JobStatus.RUNNING) = 0 ∧
    (statusList [⟨"q", "qn", 0, 2, .ok .QUEUED, .ok "", .ok 3, .ok (), 0,
      .ok ⟨1⟩⟩]).length = 1 ∧
    report { initialState with
        jobs := [⟨"q", "qn", 0, 2, .ok .QUEUED, .ok "", .ok 3, .ok (), 0,
          .ok ⟨1⟩⟩] } false =
      .ok ("Summary report:" ++ "\n" ++ "       Total jobs: 1" ++ "\n" ++
        "  Successful jobs: 0" ++ "\n" ++ "      Failed jobs: 0" ++ "\n" ++
        "   Cancelled jobs: 0" ++ "\n" ++ "     Running jobs: 0") := by
  exact ⟨by decide, by decide, by decide⟩

/-- C9 amended: the summary counts for DONE, ERROR, CANCELLED and
RUNNING sum to the number of handles whose fetched status lies in those
four categories — which is at most, and not always equal to, the total
handle count shown in the `Total jobs` line (statuses such as QUEUED,
INITIALIZING, VALIDATING or an unretrievable status are counted only in
the total).  The detailed report consists of exactly one detail block
per handle, in order, whose index marker, job ID, name, status text and
experiment index range are those of that handle — provided the
unguarded `queue_position()`/`error_message()` fetches of queued/errored
handles succeed (otherwise the whole detailed report raises). -/
theorem c9_report_structure (st : JobManagerState)
    (hq : ∀ j ∈ st.jobs, statusOf j = some JobStatus.QUEUED →
      ∃ qp, j.queuePositionResult = .ok qp)
    (he : ∀ j ∈ st.jobs, statusOf j = some JobStatus.ERROR →
      ∃ msg, j.errorMessageResult = .ok msg) :
    (statusList st.jobs).length = st.jobs.length ∧
    (statusList st.jobs).count (some JobStatus.DONE) +
      (statusList st.jobs).count (some JobStatus.ERROR) +
      (statusList st.jobs).count (some JobStatus.CANCELLED) +
      (statusList st.jobs).count (some JobStatus.RUNNING) =
      ((statusList st.jobs).filter inSummaryCategories).length ∧
    ((statusList st.jobs).filter inSummaryCategories).length ≤
      st.jobs.length ∧
    detailLoop 0 ((statusList st.jobs).zip st.jobs) =
      .ok (detailBlocks 0 ((statusList st.jobs).zip st.jobs)).flatten ∧
    (detailBlocks 0 ((statusList st.jobs).zip st.jobs)).length =
      st.jobs.length ∧
    (∀ k, (detailBlocks 0 ((statusList st.jobs).zip st.jobs))[k]? =
      ((statusList st.jobs).zip st.jobs)[k]?.map (fun p => detailBlock k p)) := by
  refine ⟨by simp [statusList], count_summary_categories _, ?_, ?_, ?_, ?_⟩
  · calc ((statusList st.jobs).filter inSummaryCategories).length
        ≤ (statusList st.jobs).length := List.length_filter_le _ _
      _ = st.jobs.length := by simp [statusList]
  · apply detailLoop_blocks
    intro p hp
    obtain ⟨h1, h2⟩ := mem_zip_map_statusOf st.jobs p
      (by rwa [statusList_eq_map] at hp)
    constructor
    · intro hpq
      exact hq p.2 h2 (by rw [← h1]; exact hpq)
    · intro hpe
      exact he p.2 h2 (by rw [← h1]; exact hpe)
  · rw [detailBlocks_length]
    simp [statusList]
  · intro k
    have h := detailBlocks_getElem ((statusList st.jobs).zip st.jobs) 0 k
    simpa using h

/-- Witness for C9 (amended) at a concrete input: one handle whose
status is DONE. -/
theorem c9_report_structure_witness :
    (statusList [⟨"d", "dn", 0, 4, .ok .DONE, .ok "", .ok 0, .ok (), 0,
        .ok ⟨2⟩⟩]).count (some JobStatus.DONE) +
      (statusList [⟨"d", "dn", 0, 4, .ok .DONE, .ok "", .ok 0, .ok (), 0,
        .ok ⟨2⟩⟩]).count (some JobStatus.ERROR) +
      (statusList [⟨"d", "dn", 0, 4, .ok .DONE, .ok "", .ok 0, .ok (), 0,
        .ok ⟨2⟩⟩]).count (some JobStatus.CANCELLED) +
      (statusList [⟨"d", "dn", 0, 4, .ok .DONE, .ok "", .ok 0, .ok (), 0,
        .ok ⟨2⟩⟩]).count (some JobStatus.RUNNING) =
      ((statusList [⟨"d", "dn", 0, 4, .ok .DONE, .ok "", .ok 0, .ok (), 0,
        .ok ⟨2⟩⟩]).filter inSummaryCategories).length ∧
    detailLoop 0 ((statusList [⟨"d", "dn", 0, 4, .ok .DONE, .ok "", .ok 0,
        .ok (), 0, .ok ⟨2⟩⟩]).zip
        [⟨"d", "dn", 0, 4, .ok .DONE, .ok "", .ok 0, .ok (), 0, .ok ⟨2⟩⟩]) =
      .ok (detailBlocks 0 ((statusList [⟨"d", "dn", 0, 4, .ok .DONE, .ok "",
        .ok 0, .ok (), 0, .ok ⟨2⟩⟩]).zip
        [⟨"d", "dn", 0, 4, .ok .DONE, .ok "", .ok 0, .ok (), 0,
          .ok ⟨2⟩⟩])).flatten ∧
    (detailBlocks 0 ((statusList [⟨"d", "dn", 0, 4, .ok .DONE, .ok "", .ok 0,
        .ok (), 0, .ok ⟨2⟩⟩]).zip
        [⟨"d", "dn", 0, 4, .ok .DONE, .ok "", .ok 0, .ok (), 0,
          .ok ⟨2⟩⟩])).length = 1 := by
  have h := c9_report_structure { initialState with
      jobs := [⟨"d", "dn", 0, 4, .ok .DONE, .ok "", .ok 0, .ok (), 0,
        .ok ⟨2⟩⟩] }
    (by
      intro j hj
      rw [List.mem_singleton] at hj
      subst hj
      intro hcontra
      exact absurd hcontra (by decide))
    (by
      intro j hj
      rw [List.mem_singleton] at hj
      subst hj
      intro hcontra
      exact absurd hcontra (by decide))
  exact ⟨h.2.1, h.2.2.2.1, h.2.2.2.2.1⟩
